import Mathlib

/-!
Verification of the postgres-ost online-schema-transformation tool.

The definitions below are a shallow embedding of the Rust sources:
  - src/table.rs           (Table, qualified-name rendering)
  - src/column_map.rs      (ColumnMap::new and its projections)
  - src/replay/log_table_replay.rs (LogTableReplay: fetch_batch, batch2sql,
                            replay_log, teardown, replay_log_until_complete)
  - src/logical_replay.rs  (wal2json2sql)
  - src/backfill.rs        (BatchedBackfill::backfill)
  - src/migration.rs       (Migration::new name derivation, swap_tables)
  - src/orchestrator.rs    (MigrationOrchestrator::orchestrate, execute branch)
  - src/replay.rs          (LogicalReplay::teardown)
  - src/logical_replication/message.rs (Lsn)
Database effects (queries, transactions) are modelled by explicit state
passing; fallible statement execution is modelled by an oracle telling
which statements fail.
-/

set_option maxHeartbeats 1000000
set_option maxRecDepth 100000

/-- src/table.rs: a qualified table identifier `(schema?, name)`. -/
structure Table where
  schema : Option String
  name : String
deriving DecidableEq, Repr

/-- Display impl for Table: `schema.name`, or bare `name` when no schema. -/
def Table.display (t : Table) : String :=
  match t.schema with
  | some s => s ++ "." ++ t.name
  | none => t.name

/-- Rust str::split_once at the first dot, on character lists. -/
def splitOnceDot : List Char → Option (List Char × List Char)
  | [] => none
  | c :: rest =>
    if c = '.' then some ([], rest)
    else
      match splitOnceDot rest with
      | some (a, b) => some (c :: a, b)
      | none => none

/-- Table::new / FromStr: split_once at the first dot into schema and
name; no dot means no schema. -/
def Table.new (full_name : String) : Table :=
  match splitOnceDot full_name.toList with
  | some (schema, name) =>
    { schema := some (String.mk schema), name := String.mk name }
  | none => { schema := none, name := full_name }

/-- The two primary-key column types the tool supports
(postgres::types::Type restricted to INT4 / INT8). -/
inductive PgType where
  | int4
  | int8
deriving DecidableEq, Repr

/-- src/migration.rs: PrimaryKeyInfo { name, ty }. -/
structure PrimaryKeyInfo where
  name : String
  ty : PgType
deriving DecidableEq, Repr

/-- src/column_map.rs: ColumnMap(Vec<(String, Option<String>)>). -/
structure ColumnMap where
  entries : List (String × Option String)
deriving DecidableEq, Repr

/-- src/column_map.rs ColumnMap::new, the pure core over the two fetched
column lists (the Rust function obtains `main_cols` / `shadow_cols` from the
catalogue and then runs exactly this computation). -/
def ColumnMap.new (main_cols shadow_cols : List String) : ColumnMap :=
  let unmatched_main := main_cols.filter (fun c => !(shadow_cols.contains c))
  let unmatched_shadow := shadow_cols.filter (fun c => !(main_cols.contains c))
  ⟨main_cols.map (fun main_col =>
    match shadow_cols.find? (fun c => c == main_col) with
    | some shadow_col => (main_col, some shadow_col)
    | none =>
      match unmatched_main, unmatched_shadow with
      | [m], [s] =>
        if m = main_col then (main_col, some s) else (main_col, none)
      | _, _ => (main_col, none))⟩

/-- ColumnMap::shadow_cols: destination columns of the mapped entries. -/
def ColumnMap.shadow_cols (m : ColumnMap) : List String :=
  m.entries.filterMap (fun e => e.2)

/-- ColumnMap::main_cols: source columns of the mapped entries. -/
def ColumnMap.main_cols (m : ColumnMap) : List String :=
  m.entries.filterMap (fun e => e.2.map (fun _ => e.1))

/-- The per-column rule of the specification (§3 ColumnMap), written from the
spec's words: (i) identically-named shadow column → `(c, Some c)`;
(ii) exactly one unmatched main and one unmatched shadow column and `c` is
that unmatched main column → the pair is a rename; (iii) otherwise
`(c, None)`. -/
def specColumnEntry (main_cols shadow_cols : List String) (c : String) :
    String × Option String :=
  if shadow_cols.contains c then (c, some c)
  else
    match main_cols.filter (fun x => !(shadow_cols.contains x)),
        shadow_cols.filter (fun x => !(main_cols.contains x)) with
    | [m], [s] => if c = m then (c, some s) else (c, none)
    | _, _ => (c, none)

section ColumnMapLemmas

lemma find?_beq_eq_some {l : List String} {c x : String}
    (h : l.find? (fun y => y == c) = some x) : x = c ∧ c ∈ l := by
  have hx := List.find?_some h
  have hm := List.mem_of_find?_eq_some h
  simp only [beq_iff_eq] at hx
  exact ⟨hx, hx ▸ hm⟩

lemma find?_beq_eq_none {l : List String} {c : String}
    (h : l.find? (fun y => y == c) = none) : ¬ c ∈ l := by
  intro hc
  have := List.find?_eq_none.mp h c hc
  simp at this

lemma contains_eq_true_iff {l : List String} {c : String} :
    l.contains c = true ↔ c ∈ l := by
  simp [List.contains]

lemma contains_eq_false_of_not_mem {l : List String} {c : String}
    (h : ¬ c ∈ l) : l.contains c = false := by
  rw [Bool.eq_false_iff]
  intro hcontra
  exact h (contains_eq_true_iff.mp hcontra)

/-- Each entry of ColumnMap::new is given by the spec's per-column rule. -/
lemma columnMap_new_entry (main_cols shadow_cols : List String) :
    (ColumnMap.new main_cols shadow_cols).entries
      = main_cols.map (specColumnEntry main_cols shadow_cols) := by
  refine List.map_congr_left ?_
  intro c hc
  rcases h : shadow_cols.find? (fun y => y == c) with _ | x
  · have hnc : ¬ c ∈ shadow_cols := find?_beq_eq_none h
    have hco : shadow_cols.contains c = false := contains_eq_false_of_not_mem hnc
    unfold specColumnEntry
    rw [hco]
    simp only [Bool.false_eq_true, if_false]
    rcases hum : main_cols.filter (fun c => !(shadow_cols.contains c)) with
      _ | ⟨m1, _ | ⟨m2, mr⟩⟩
    · rfl
    · rcases hus : shadow_cols.filter (fun c => !(main_cols.contains c)) with
        _ | ⟨s1, _ | ⟨s2, sr⟩⟩
      · rfl
      · by_cases hmc : m1 = c
        · simp [hmc]
        · simp [hmc, Ne.symm hmc]
      · rfl
    · rfl
  · obtain ⟨hx, hmem⟩ := find?_beq_eq_some h
    have hct : shadow_cols.contains c = true := contains_eq_true_iff.mpr hmem
    unfold specColumnEntry
    rw [hct]
    simp only [if_true]
    rw [hx]

end ColumnMapLemmas

/-- C6. For every pair of main/shadow column lists, ColumnMap construction
produces, for each main column in order, the entry given by the spec's rule:
(i) `(c, Some c)` when an identically-named shadow column exists; (ii) the
single-column rename pairing when exactly one main and one shadow column are
unmatched and the current column is that unmatched main column; and
(iii) `(c, None)` otherwise.  Consequently: with identical lists every
column maps to itself; with exactly one unmatched pair, that pair maps as a
rename (matched columns still map to themselves); and with two or more
unmatched main columns, every unmatched main column maps to None. -/
theorem columnMap_new_spec :
    (∀ main_cols shadow_cols : List String,
      (ColumnMap.new main_cols shadow_cols).entries
        = main_cols.map (specColumnEntry main_cols shadow_cols))
    ∧ (∀ cols : List String,
      (ColumnMap.new cols cols).entries = cols.map (fun c => (c, some c)))
    ∧ (∀ main_cols shadow_cols : List String, ∀ m s : String,
      main_cols.filter (fun x => !(shadow_cols.contains x)) = [m] →
      shadow_cols.filter (fun x => !(main_cols.contains x)) = [s] →
      (ColumnMap.new main_cols shadow_cols).entries
        = main_cols.map (fun c =>
            if c ∈ shadow_cols then (c, some c) else (c, some s)))
    ∧ (∀ main_cols shadow_cols : List String,
      2 ≤ (main_cols.filter (fun x => !(shadow_cols.contains x))).length →
      (ColumnMap.new main_cols shadow_cols).entries
        = main_cols.map (fun c =>
            if c ∈ shadow_cols then (c, some c) else (c, none))) := by
  refine ⟨columnMap_new_entry, ?_, ?_, ?_⟩
  · intro cols
    rw [columnMap_new_entry]
    refine List.map_congr_left ?_
    intro c hc
    have hct : cols.contains c = true := contains_eq_true_iff.mpr hc
    unfold specColumnEntry
    rw [hct]
    simp only [if_true]
  · intro main_cols shadow_cols m s hm hs
    rw [columnMap_new_entry]
    refine List.map_congr_left ?_
    intro c hc
    unfold specColumnEntry
    rw [hm, hs]
    by_cases hmem : c ∈ shadow_cols
    · have hct : shadow_cols.contains c = true := contains_eq_true_iff.mpr hmem
      rw [hct, if_pos hmem]
      simp only [if_true]
    · have hco : shadow_cols.contains c = false := contains_eq_false_of_not_mem hmem
      have hcm : c ∈ main_cols.filter (fun x => !(shadow_cols.contains x)) := by
        rw [List.mem_filter]
        exact ⟨hc, by simp [hmem]⟩
      rw [hm] at hcm
      have hceq : c = m := by simpa using hcm
      rw [hco, if_neg hmem]
      simp only [Bool.false_eq_true, if_false, if_pos hceq]
  · intro main_cols shadow_cols hlen
    rw [columnMap_new_entry]
    refine List.map_congr_left ?_
    intro c hc
    unfold specColumnEntry
    rcases hfm : main_cols.filter (fun x => !(shadow_cols.contains x)) with
      _ | ⟨a, _ | ⟨b, l⟩⟩
    · rw [hfm] at hlen
      simp at hlen
    · rw [hfm] at hlen
      simp at hlen
    · by_cases hmem : c ∈ shadow_cols
      · have hct : shadow_cols.contains c = true := contains_eq_true_iff.mpr hmem
        rw [hct, if_pos hmem]
        simp only [if_true]
      · have hco : shadow_cols.contains c = false := contains_eq_false_of_not_mem hmem
        rw [hco, if_neg hmem]
        simp only [Bool.false_eq_true, if_false]

/-- Witness for `columnMap_new_spec` at concrete inputs: a rename pair
(`target` → `something_else`) and a multi-unmatched (drop) situation. -/
theorem columnMap_new_spec_witness :
    ((["id", "target"].filter
        (fun x => !((["id", "something_else"] : List String).contains x)) = ["target"])
      ∧ ((["id", "something_else"] : List String).filter
        (fun x => !((["id", "target"] : List String).contains x)) = ["something_else"])
      ∧ (ColumnMap.new ["id", "target"] ["id", "something_else"]).entries
          = (["id", "target"].map (fun c =>
              if c ∈ (["id", "something_else"] : List String) then (c, some c)
              else (c, some "something_else"))))
    ∧ (2 ≤ ((["id", "a", "b"].filter
        (fun x => !((["id"] : List String).contains x))).length)
      ∧ (ColumnMap.new ["id", "a", "b"] ["id"]).entries
          = (["id", "a", "b"].map (fun c =>
              if c ∈ (["id"] : List String) then (c, some c) else (c, none)))) :=
  ⟨⟨by decide, by decide,
      columnMap_new_spec.2.2.1 ["id", "target"] ["id", "something_else"]
        "target" "something_else" (by decide) (by decide)⟩,
    ⟨by decide, columnMap_new_spec.2.2.2 ["id", "a", "b"] ["id"] (by decide)⟩⟩

/-! ## Replay engine: log-table rows to SQL (src/replay/log_table_replay.rs) -/

/-- src/replay/log_table_replay.rs: enum PrimaryKey { I32(i32), I64(i64) }.
The machine integers are modelled as Int; only their decimal rendering is
used. -/
inductive PrimaryKey where
  | i32 (v : Int)
  | i64 (v : Int)
deriving DecidableEq, Repr

/-- PrimaryKey::to_sql: decimal rendering. -/
def PrimaryKey.to_sql : PrimaryKey → String
  | .i32 v => toString v
  | .i64 v => toString v

/-- A row of the trigger log table as read by the replay engine: the
`operation` text column and the primary-key value (read as i32 or i64
according to the migration's key type). -/
structure LogRow where
  operation : String
  pkVal : Int
deriving DecidableEq, Repr

/-- PrimaryKey::from_row: reads the pk column as i32 for INT4, i64 for
INT8. -/
def PrimaryKey.from_row (row : LogRow) (pk_type : PgType) : PrimaryKey :=
  match pk_type with
  | .int4 => .i32 row.pkVal
  | .int8 => .i64 row.pkVal

/-- src/replay/log_table_replay.rs: struct LogTableReplay. -/
structure LogTableReplay where
  log_table : Table
  shadow_table : Table
  table : Table
  column_map : ColumnMap
  primary_key : PrimaryKeyInfo

/-- LogTableReplay::batch2sql: converts a batch of log-table rows to SQL
apply-statements against the shadow table. -/
def LogTableReplay.batch2sql (r : LogTableReplay) (rows : List LogRow)
    (column_map : ColumnMap) : List String :=
  let shadow_cols := column_map.shadow_cols
  let main_cols := column_map.main_cols
  let insert_cols_csv := String.intercalate ", " shadow_cols
  let select_cols_csv := String.intercalate ", " main_cols
  let pk_col := r.primary_key.name
  let pk_type := r.primary_key.ty
  rows.flatMap (fun row =>
    let pk_sql := (PrimaryKey.from_row row pk_type).to_sql
    if row.operation = "DELETE" then
      ["DELETE FROM " ++ r.shadow_table.display ++ " WHERE " ++ pk_col
        ++ " = " ++ pk_sql]
    else if row.operation = "INSERT" then
      ["INSERT INTO " ++ r.shadow_table.display ++ " (" ++ insert_cols_csv
        ++ ") SELECT " ++ select_cols_csv ++ " FROM " ++ r.table.display
        ++ " WHERE " ++ pk_col ++ " = " ++ pk_sql]
    else if row.operation = "UPDATE" then
      let set_clause := String.intercalate ", "
        ((shadow_cols.zip main_cols).map (fun p =>
          p.1 ++ " = (SELECT " ++ p.2 ++ " FROM " ++ r.table.display
            ++ " WHERE " ++ pk_col ++ " = " ++ pk_sql ++ ")"))
      ["UPDATE " ++ r.shadow_table.display ++ " SET " ++ set_clause
        ++ " WHERE " ++ pk_col ++ " = " ++ pk_sql]
    else [])

/-! ## Logical replay: wal2json to SQL (src/logical_replay.rs) -/

/-- A model of serde_json::Value sufficient for the wal2json payloads the
replay engine consumes (numbers restricted to integers, which is what the
primary-key positions carry). -/
inductive Json where
  | null
  | bool (b : Bool)
  | num (n : Int)
  | str (s : String)
  | arr (xs : List Json)
  | obj (fields : List (String × Json))
deriving BEq, Repr

/-- serde_json Value::get on objects. -/
def Json.get : Json → String → Option Json
  | .obj fields, key => (fields.find? (fun f => f.1 == key)).map (fun f => f.2)
  | _, _ => none

/-- serde_json Value::as_array. -/
def Json.as_array : Json → Option (List Json)
  | .arr xs => some xs
  | _ => none

/-- serde_json Value::as_str. -/
def Json.as_str : Json → Option String
  | .str s => some s
  | _ => none

/-- serde_json Value::as_i64 (only integer numbers in this model). -/
def Json.as_i64 : Json → Option Int
  | .num n => some n
  | _ => none

mutual

/-- Model of serde_json Value::to_string (compact rendering; string escaping
is not modelled because only numeric leaves are rendered by the program). -/
def Json.render : Json → String
  | .null => "null"
  | .bool true => "true"
  | .bool false => "false"
  | .num n => toString n
  | .str s => "\"" ++ s ++ "\""
  | .arr xs => "[" ++ String.intercalate "," (Json.renderList xs) ++ "]"
  | .obj fields => "\x7b" ++ String.intercalate "," (Json.renderFields fields) ++ "\x7d"

def Json.renderList : List Json → List String
  | [] => []
  | x :: xs => Json.render x :: Json.renderList xs

def Json.renderFields : List (String × Json) → List String
  | [] => []
  | f :: fs => ("\"" ++ f.1 ++ "\":" ++ Json.render f.2) :: Json.renderFields fs

end

/-- The body of the inner loop of wal2json2sql (src/logical_replay.rs):
statements generated for one element of a wal2json `change` array. -/
def wal2json_change2sql (change : Json) (column_map : ColumnMap)
    (main_table shadow_table : Table) (primary_key : PrimaryKeyInfo) :
    List String :=
  let shadow_cols := column_map.shadow_cols
  let main_cols := column_map.main_cols
  let insert_cols_csv := String.intercalate ", " shadow_cols
  let select_cols_csv := String.intercalate ", " main_cols
  let pk_col := primary_key.name
  let pk_type := primary_key.ty
  let kind := ((change.get "kind").bind Json.as_str).getD ""
  let render_pk := fun (pk_val : Json) =>
    if pk_type = PgType.int4 then toString (pk_val.as_i64.getD 0)
    else pk_val.render
  let pk_sql :=
    if kind = "delete" then
      match (((change.get "oldkeys").bind (fun ok => ok.get "keyvalues")).bind
          Json.as_array).bind List.head? with
      | some pk_val => render_pk pk_val
      | none => "NULL"
    else
      match (((change.get "columnvalues").bind Json.as_array).bind
          List.head?) with
      | some pk_val => render_pk pk_val
      | none => "NULL"
  if kind = "delete" then
    ["DELETE FROM " ++ shadow_table.display ++ " WHERE " ++ pk_col ++ " = "
      ++ pk_sql]
  else if kind = "insert" then
    ["INSERT INTO " ++ shadow_table.display ++ " (" ++ insert_cols_csv
      ++ ") SELECT " ++ select_cols_csv ++ " FROM " ++ main_table.display
      ++ " WHERE " ++ pk_col ++ " = " ++ pk_sql]
  else if kind = "update" then
    let set_clause := String.intercalate ", "
      ((shadow_cols.zip main_cols).map (fun p =>
        p.1 ++ " = (SELECT " ++ p.2 ++ " FROM " ++ main_table.display
          ++ " WHERE " ++ pk_col ++ " = " ++ pk_sql ++ ")"))
    ["UPDATE " ++ shadow_table.display ++ " SET " ++ set_clause ++ " WHERE "
      ++ pk_col ++ " = " ++ pk_sql]
  else []

/-- src/logical_replay.rs wal2json2sql: converts a batch of parsed wal2json
JSON objects to SQL apply-statements. -/
def wal2json2sql (batch : List Json) (column_map : ColumnMap)
    (main_table shadow_table : Table) (primary_key : PrimaryKeyInfo) :
    List String :=
  batch.flatMap (fun json =>
    match (json.get "change").bind Json.as_array with
    | some changes =>
      changes.flatMap (fun change =>
        wal2json_change2sql change column_map main_table shadow_table
          primary_key)
    | none => [])

/-! ## C4: the apply rules of the replay engine -/

/-- The three event kinds of the spec's apply-rules table (§4.8). -/
inductive EventKind where
  | ins
  | upd
  | del
deriving DecidableEq, Repr

/-- The apply-statement mandated by the spec (§4.8) for a captured event of
a given kind with primary-key value `k`, rendered as a decimal integer
literal. -/
def specApplyStatement (shadow main : Table) (cmap : ColumnMap)
    (pk_col : String) (kind : EventKind) (k : Int) : String :=
  match kind with
  | .del =>
    "DELETE FROM " ++ shadow.display ++ " WHERE " ++ pk_col ++ " = "
      ++ toString k
  | .ins =>
    "INSERT INTO " ++ shadow.display ++ " ("
      ++ String.intercalate ", " cmap.shadow_cols ++ ") SELECT "
      ++ String.intercalate ", " cmap.main_cols ++ " FROM " ++ main.display
      ++ " WHERE " ++ pk_col ++ " = " ++ toString k
  | .upd =>
    "UPDATE " ++ shadow.display ++ " SET "
      ++ String.intercalate ", "
        ((cmap.shadow_cols.zip cmap.main_cols).map (fun p =>
          p.1 ++ " = (SELECT " ++ p.2 ++ " FROM " ++ main.display
            ++ " WHERE " ++ pk_col ++ " = " ++ toString k ++ ")"))
      ++ " WHERE " ++ pk_col ++ " = " ++ toString k

/-- Kind of a trigger-log operation string. -/
def opEventKind (op : String) : EventKind :=
  if op = "DELETE" then .del else if op = "INSERT" then .ins else .upd

/-- Kind of a wal2json change-kind string. -/
def walEventKind (kind : String) : EventKind :=
  if kind = "delete" then .del else if kind = "insert" then .ins else .upd

/-- A wal2json change object carrying kind `kind` and integer primary-key
value `k` in the position the replay engine reads it from (oldkeys.keyvalues
for deletes, columnvalues otherwise). -/
def wal2jsonEvent (change : Json) (kind : String) (k : Int) : Prop :=
  (change.get "kind").bind Json.as_str = some kind ∧
  (if kind = "delete" then
    (((change.get "oldkeys").bind (fun ok => ok.get "keyvalues")).bind
      Json.as_array).bind List.head? = some (Json.num k)
  else
    (((change.get "columnvalues").bind Json.as_array).bind List.head?)
      = some (Json.num k))

lemma from_row_to_sql (row : LogRow) (ty : PgType) :
    (PrimaryKey.from_row row ty).to_sql = toString row.pkVal := by
  cases ty <;> rfl

lemma batch2sql_nil (r : LogTableReplay) (cmap : ColumnMap) :
    r.batch2sql [] cmap = [] := rfl

lemma batch2sql_cons (r : LogTableReplay) (row : LogRow) (rest : List LogRow)
    (cmap : ColumnMap) :
    r.batch2sql (row :: rest) cmap
      = r.batch2sql [row] cmap ++ r.batch2sql rest cmap := by
  simp [LogTableReplay.batch2sql]

lemma batch2sql_single (r : LogTableReplay) (row : LogRow) (cmap : ColumnMap)
    (h : row.operation = "INSERT" ∨ row.operation = "UPDATE"
      ∨ row.operation = "DELETE") :
    r.batch2sql [row] cmap
      = [specApplyStatement r.shadow_table r.table cmap r.primary_key.name
          (opEventKind row.operation) row.pkVal] := by
  rcases h with h | h | h <;>
    simp [LogTableReplay.batch2sql, specApplyStatement, opEventKind, h,
      from_row_to_sql]

lemma render_num (k : Int) : (Json.num k).render = toString k := by
  simp [Json.render]

lemma wal2json_change2sql_of_event (change : Json) (kind : String) (k : Int)
    (cmap : ColumnMap) (main_table shadow_table : Table)
    (primary_key : PrimaryKeyInfo)
    (hwf : wal2jsonEvent change kind k)
    (hkind : kind = "insert" ∨ kind = "update" ∨ kind = "delete") :
    wal2json_change2sql change cmap main_table shadow_table primary_key
      = [specApplyStatement shadow_table main_table cmap primary_key.name
          (walEventKind kind) k] := by
  obtain ⟨hk, hpk⟩ := hwf
  have hrender : ∀ ty : PgType,
      (if ty = PgType.int4 then toString ((Json.num k).as_i64.getD 0)
        else (Json.num k).render) = toString k := by
    intro ty
    cases ty <;> simp [Json.as_i64, render_num]
  rcases hkind with h | h | h <;> subst h <;>
    · rw [wal2json_change2sql]
      rw [hk] at *
      simp only [Option.getD_some]
      simp only [if_neg, if_pos, reduceIte] at hpk ⊢
      rw [hpk]
      simp [specApplyStatement, walEventKind, hrender primary_key.ty]

/-- C4. For every captured event with primary-key value `k`, the replay
engine (trigger-mode batch2sql, and logical-mode wal2json2sql) generates
exactly one statement, determined by the event kind per the spec's
apply-rules table, with `k` rendered as a decimal integer literal, and the
statements appear in the captured order of the events. -/
theorem replay_apply_statements :
    (∀ (r : LogTableReplay) (rows : List LogRow),
      (∀ row ∈ rows, row.operation = "INSERT" ∨ row.operation = "UPDATE"
        ∨ row.operation = "DELETE") →
      r.batch2sql rows r.column_map
        = rows.map (fun row =>
            specApplyStatement r.shadow_table r.table r.column_map
              r.primary_key.name (opEventKind row.operation) row.pkVal))
    ∧ (∀ (cmap : ColumnMap) (main_table shadow_table : Table)
        (primary_key : PrimaryKeyInfo) (events : List (Json × String × Int))
        (j : Json),
      (∀ e ∈ events, wal2jsonEvent e.1 e.2.1 e.2.2
        ∧ (e.2.1 = "insert" ∨ e.2.1 = "update" ∨ e.2.1 = "delete")) →
      (j.get "change").bind Json.as_array = some (events.map (fun e => e.1)) →
      wal2json2sql [j] cmap main_table shadow_table primary_key
        = events.map (fun e =>
            specApplyStatement shadow_table main_table cmap primary_key.name
              (walEventKind e.2.1) e.2.2)) := by
  constructor
  · intro r rows h
    induction rows with
    | nil => rfl
    | cons row rest ih =>
      rw [batch2sql_cons, List.map_cons]
      rw [batch2sql_single r row r.column_map (h row (by simp))]
      rw [ih (fun x hx => h x (List.mem_cons_of_mem _ hx))]
      rfl
  · intro cmap main_table shadow_table primary_key events j h hj
    have : wal2json2sql [j] cmap main_table shadow_table primary_key
        = (events.map (fun e => e.1)).flatMap (fun change =>
            wal2json_change2sql change cmap main_table shadow_table
              primary_key) := by
      simp [wal2json2sql, hj]
    rw [this]
    clear this hj
    induction events with
    | nil => rfl
    | cons e rest ih =>
      rw [List.map_cons, List.flatMap_cons, List.map_cons]
      rw [wal2json_change2sql_of_event e.1 e.2.1 e.2.2 cmap main_table
        shadow_table primary_key (h e (by simp)).1 (h e (by simp)).2]
      rw [ih (fun x hx => h x (List.mem_cons_of_mem _ hx))]
      rfl

/-- Witness for `replay_apply_statements`: a two-event trigger batch and a
one-event wal2json batch at concrete inputs. -/
theorem replay_apply_statements_witness :
    ((∀ row ∈ [LogRow.mk "INSERT" 1, LogRow.mk "UPDATE" 5, LogRow.mk "DELETE" 2],
        row.operation = "INSERT" ∨ row.operation = "UPDATE"
          ∨ row.operation = "DELETE")
      ∧ (LogTableReplay.mk (Table.mk (some "post_migrations") "t_log")
          (Table.mk (some "post_migrations") "t") (Table.mk none "t")
          (ColumnMap.new ["id", "assertable"] ["id", "assertable"])
          (PrimaryKeyInfo.mk "id" PgType.int8)).batch2sql
          [LogRow.mk "INSERT" 1, LogRow.mk "UPDATE" 5, LogRow.mk "DELETE" 2]
          (ColumnMap.new ["id", "assertable"] ["id", "assertable"])
        = [LogRow.mk "INSERT" 1, LogRow.mk "UPDATE" 5,
            LogRow.mk "DELETE" 2].map (fun row =>
            specApplyStatement (Table.mk (some "post_migrations") "t")
              (Table.mk none "t")
              (ColumnMap.new ["id", "assertable"] ["id", "assertable"]) "id"
              (opEventKind row.operation) row.pkVal))
    ∧ ((∀ e ∈ [(Json.obj [("kind", Json.str "insert"),
            ("columnvalues", Json.arr [Json.num 7])], "insert", (7 : Int))],
          wal2jsonEvent e.1 e.2.1 e.2.2
            ∧ (e.2.1 = "insert" ∨ e.2.1 = "update" ∨ e.2.1 = "delete"))
      ∧ (((Json.obj [("change", Json.arr [Json.obj [("kind", Json.str "insert"),
            ("columnvalues", Json.arr [Json.num 7])]])]).get
            "change").bind Json.as_array
          = some ([(Json.obj [("kind", Json.str "insert"),
              ("columnvalues", Json.arr [Json.num 7])], "insert",
              (7 : Int))].map (fun e => e.1)))
      ∧ wal2json2sql
          [Json.obj [("change", Json.arr [Json.obj [("kind", Json.str "insert"),
            ("columnvalues", Json.arr [Json.num 7])]])]]
          (ColumnMap.new ["id"] ["id"]) (Table.mk none "t")
          (Table.mk (some "post_migrations") "t")
          (PrimaryKeyInfo.mk "id" PgType.int4)
        = [(Json.obj [("kind", Json.str "insert"),
            ("columnvalues", Json.arr [Json.num 7])], "insert",
            (7 : Int))].map (fun e =>
            specApplyStatement (Table.mk (some "post_migrations") "t")
              (Table.mk none "t") (ColumnMap.new ["id"] ["id"]) "id"
              (walEventKind e.2.1) e.2.2)) :=
  ⟨⟨by decide,
    replay_apply_statements.1
      (LogTableReplay.mk (Table.mk (some "post_migrations") "t_log")
        (Table.mk (some "post_migrations") "t") (Table.mk none "t")
        (ColumnMap.new ["id", "assertable"] ["id", "assertable"])
        (PrimaryKeyInfo.mk "id" PgType.int8))
      [LogRow.mk "INSERT" 1, LogRow.mk "UPDATE" 5, LogRow.mk "DELETE" 2]
      (by decide)⟩,
    ⟨by
      intro e he
      simp only [List.mem_singleton] at he
      subst he
      exact ⟨⟨rfl, rfl⟩, Or.inl rfl⟩,
    rfl,
    replay_apply_statements.2 (ColumnMap.new ["id"] ["id"])
      (Table.mk none "t") (Table.mk (some "post_migrations") "t")
      (PrimaryKeyInfo.mk "id" PgType.int4)
      [(Json.obj [("kind", Json.str "insert"),
        ("columnvalues", Json.arr [Json.num 7])], "insert", (7 : Int))]
      (Json.obj [("change", Json.arr [Json.obj [("kind", Json.str "insert"),
        ("columnvalues", Json.arr [Json.num 7])]])])
      (by
        intro e he
        simp only [List.mem_singleton] at he
        subst he
        exact ⟨⟨rfl, rfl⟩, Or.inl rfl⟩)
      rfl⟩⟩

/-! ## C5: trigger-mode replay_log transactionality
(src/replay/log_table_replay.rs replay_log / fetch_batch) -/

/-- A row of the trigger log table together with its
`post_migration_log_id` serial value. -/
structure LogEntry where
  seq : Nat
  row : LogRow
deriving DecidableEq, Repr

/-- Ascending insertion into a seq-sorted list (model of ORDER BY
post_migration_log_id ASC). -/
def insertSorted (e : LogEntry) : List LogEntry → List LogEntry
  | [] => [e]
  | x :: xs => if e.seq ≤ x.seq then e :: x :: xs else x :: insertSorted e xs

/-- The log table in `seq` order, as the `ORDER BY … ASC` clause of the
fetch query presents it. -/
def sortLog : List LogEntry → List LogEntry
  | [] => []
  | x :: xs => insertSorted x (sortLog xs)

lemma mem_insertSorted {b e : LogEntry} :
    ∀ {l : List LogEntry}, b ∈ insertSorted e l ↔ b = e ∨ b ∈ l := by
  intro l
  induction l with
  | nil => simp [insertSorted]
  | cons x xs ih =>
    rw [insertSorted]
    by_cases hle : e.seq ≤ x.seq
    · rw [if_pos hle]
      simp
    · rw [if_neg hle]
      simp only [List.mem_cons, ih]
      tauto

lemma insertSorted_pairwise (e : LogEntry) (l : List LogEntry)
    (h : List.Pairwise (fun a b => a.seq ≤ b.seq) l) :
    List.Pairwise (fun a b => a.seq ≤ b.seq) (insertSorted e l) := by
  induction l with
  | nil => simp [insertSorted]
  | cons x xs ih =>
    rw [insertSorted]
    rcases List.pairwise_cons.mp h with ⟨hxall, hxs⟩
    by_cases hle : e.seq ≤ x.seq
    · rw [if_pos hle]
      refine List.pairwise_cons.mpr ⟨?_, h⟩
      intro b hb
      rcases List.mem_cons.mp hb with rfl | hb
      · exact hle
      · exact le_trans hle (hxall b hb)
    · rw [if_neg hle]
      refine List.pairwise_cons.mpr ⟨?_, ih hxs⟩
      intro b hb
      rcases mem_insertSorted.mp hb with rfl | hb
      · exact le_of_not_le hle
      · exact hxall b hb

lemma sortLog_pairwise (l : List LogEntry) :
    List.Pairwise (fun a b => a.seq ≤ b.seq) (sortLog l) := by
  induction l with
  | nil => exact List.Pairwise.nil
  | cons x xs ih => exact insertSorted_pairwise x (sortLog xs) ih

/-- Database state visible to trigger-mode replay: the log table contents
and the sequence of apply-statements successfully executed against the
shadow table. -/
structure ReplayDb where
  log : List LogEntry
  applied : List String
deriving DecidableEq, Repr

/-- LogTableReplay::fetch_batch: the `DELETE … WHERE post_migration_log_id
IN (SELECT … ORDER BY post_migration_log_id ASC LIMIT $1) RETURNING *`
executed inside the open transaction: removes the first `batch_size` rows in
seq order and returns them. -/
def LogTableReplay.fetch_batch (_r : LogTableReplay) (s : ReplayDb)
    (batch_size : Nat) : List LogEntry × ReplayDb :=
  ((sortLog s.log).take batch_size,
    { s with log := (sortLog s.log).drop batch_size })

/-- Sequential `txn.batch_execute(&stmt)?` over the generated statements:
the oracle `fails` tells which statements error; the first failure aborts
with that error. -/
def exec_statements (fails : String → Bool) :
    List String → ReplayDb → Except String ReplayDb
  | [], s => .ok s
  | stmt :: rest, s =>
    if fails stmt then .error stmt
    else exec_statements fails rest { s with applied := s.applied ++ [stmt] }

/-- LogTableReplay::replay_log: opens a transaction, fetches a batch of at
most 100 log rows, converts them with batch2sql, executes every statement,
and commits.  An error from any statement propagates before `txn.commit()`,
so the transaction is dropped and rolls back: the pre-call state is
returned together with the error. -/
def LogTableReplay.replay_log (r : LogTableReplay) (fails : String → Bool)
    (s : ReplayDb) : ReplayDb × Option String :=
  let fetched := r.fetch_batch s 100
  let statements := r.batch2sql (fetched.1.map LogEntry.row) r.column_map
  match exec_statements fails statements fetched.2 with
  | .ok committed => (committed, none)
  | .error e => (s, some e)

lemma exec_statements_ok {fails : String → Bool} :
    ∀ {stmts : List String} {s t : ReplayDb},
      exec_statements fails stmts s = .ok t →
      t.log = s.log ∧ t.applied = s.applied ++ stmts := by
  intro stmts
  induction stmts with
  | nil =>
    intro s t h
    rw [exec_statements] at h
    cases h
    simp
  | cons stmt rest ih =>
    intro s t h
    rw [exec_statements] at h
    by_cases hf : fails stmt
    · rw [if_pos hf] at h
      cases h
    · rw [if_neg hf] at h
      obtain ⟨h1, h2⟩ := ih h
      simp only at h1 h2
      exact ⟨h1, by rw [h2, List.append_assoc]; rfl⟩

/-- C5. Trigger-mode replay_log fetches a batch of at most 100 rows in seq
order and executes the log-fetch DELETE and all generated apply-statements
in one transaction committed only after all statements succeed: if any
apply-statement fails, the whole state (log table included) is exactly as
before the call, and on success the fetched rows are removed from the log
and exactly the generated statements were applied. -/
theorem replay_log_transactional :
    ∀ (r : LogTableReplay) (fails : String → Bool) (s : ReplayDb),
      ((r.fetch_batch s 100).1.length ≤ 100
        ∧ List.Pairwise (fun a b => a.seq ≤ b.seq) (r.fetch_batch s 100).1)
      ∧ (∀ e, (r.replay_log fails s).2 = some e →
          (r.replay_log fails s).1 = s)
      ∧ ((r.replay_log fails s).2 = none →
          (r.replay_log fails s).1.log = (sortLog s.log).drop 100
          ∧ (r.replay_log fails s).1.applied
              = s.applied ++ r.batch2sql
                  (((sortLog s.log).take 100).map LogEntry.row)
                  r.column_map) := by
  intro r fails s
  refine ⟨⟨?_, ?_⟩, ?_, ?_⟩
  · simp only [LogTableReplay.fetch_batch]
    exact List.length_take_le 100 (sortLog s.log)
  · simp only [LogTableReplay.fetch_batch]
    exact List.Pairwise.sublist (List.take_sublist 100 (sortLog s.log))
      (sortLog_pairwise s.log)
  · intro e h
    unfold LogTableReplay.replay_log at h ⊢
    rcases hex : exec_statements fails
        (r.batch2sql ((r.fetch_batch s 100).1.map LogEntry.row) r.column_map)
        (r.fetch_batch s 100).2 with err | t
    · simp [hex]
    · simp [hex] at h
  · intro h
    unfold LogTableReplay.replay_log at h ⊢
    rcases hex : exec_statements fails
        (r.batch2sql ((r.fetch_batch s 100).1.map LogEntry.row) r.column_map)
        (r.fetch_batch s 100).2 with err | t
    · simp [hex] at h
    · obtain ⟨h1, h2⟩ := exec_statements_ok hex
      simp only [LogTableReplay.fetch_batch] at h1 h2 hex
      simp only [List.map_take] at hex h2
      simp [hex, h1, h2, LogTableReplay.fetch_batch, List.map_take]

/-- Witness for `replay_log_transactional`: one pending INSERT event whose
apply-statement fails; the state (log included) is unchanged. -/
theorem replay_log_transactional_witness :
    ((LogTableReplay.mk (Table.mk (some "post_migrations") "t_log")
        (Table.mk (some "post_migrations") "t") (Table.mk none "t")
        (ColumnMap.new ["id"] ["id"])
        (PrimaryKeyInfo.mk "id" PgType.int8)).replay_log (fun _ => true)
        (ReplayDb.mk [LogEntry.mk 1 (LogRow.mk "INSERT" 1)] [])).2
      = some "INSERT INTO post_migrations.t (id) SELECT id FROM t WHERE id = 1"
    ∧ ((LogTableReplay.mk (Table.mk (some "post_migrations") "t_log")
        (Table.mk (some "post_migrations") "t") (Table.mk none "t")
        (ColumnMap.new ["id"] ["id"])
        (PrimaryKeyInfo.mk "id" PgType.int8)).replay_log (fun _ => true)
        (ReplayDb.mk [LogEntry.mk 1 (LogRow.mk "INSERT" 1)] [])).1
      = ReplayDb.mk [LogEntry.mk 1 (LogRow.mk "INSERT" 1)] [] :=
  ⟨by decide,
    (replay_log_transactional
      (LogTableReplay.mk (Table.mk (some "post_migrations") "t_log")
        (Table.mk (some "post_migrations") "t") (Table.mk none "t")
        (ColumnMap.new ["id"] ["id"])
        (PrimaryKeyInfo.mk "id" PgType.int8)) (fun _ => true)
      (ReplayDb.mk [LogEntry.mk 1 (LogRow.mk "INSERT" 1)] [])).2.1
      "INSERT INTO post_migrations.t (id) SELECT id FROM t WHERE id = 1"
      (by decide)⟩

/-! ## C2/C3: batched backfill (src/backfill.rs BatchedBackfill) -/

/-- Model of the postgres error kinds relevant to backfill. -/
inductive PgError where
  | uniqueViolation
  | other (msg : String)
deriving DecidableEq, Repr

/-- src/backfill.rs: struct BatchedBackfill { batch_size: usize }. -/
structure BatchedBackfill where
  batch_size : Nat
deriving DecidableEq, Repr

/-- The batched-backfill INSERT…SELECT issued when a cursor is present
(src/backfill.rs lines 55-58): note the hard-coded `id` column. -/
def BatchedBackfill.statement_after (b : BatchedBackfill)
    (table_name shadow_table_name : String) (column_map : ColumnMap) :
    String :=
  "INSERT INTO " ++ shadow_table_name ++ " ("
    ++ String.intercalate ", " column_map.shadow_cols ++ ") SELECT "
    ++ String.intercalate ", " column_map.main_cols ++ " FROM " ++ table_name
    ++ " WHERE id > $1 ORDER BY id ASC LIMIT " ++ toString b.batch_size
    ++ " RETURNING id"

/-- The batched-backfill INSERT…SELECT of the first iteration
(src/backfill.rs lines 65-68): no WHERE clause, still hard-coded `id`. -/
def BatchedBackfill.statement_first (b : BatchedBackfill)
    (table_name shadow_table_name : String) (column_map : ColumnMap) :
    String :=
  "INSERT INTO " ++ shadow_table_name ++ " ("
    ++ String.intercalate ", " column_map.shadow_cols ++ ") SELECT "
    ++ String.intercalate ", " column_map.main_cols ++ " FROM " ++ table_name
    ++ " ORDER BY id ASC LIMIT " ++ toString b.batch_size ++ " RETURNING id"

/-- The loop of BatchedBackfill::backfill.  `exec` is the database: it runs
the statement with the optional cursor parameter and returns the RETURNING
column (`id`) values, or an error; every error propagates via `?`.  `fuel`
bounds the iteration count of this model (the Rust loop is unbounded). -/
def BatchedBackfill.backfill_loop (b : BatchedBackfill)
    (exec : String → Option Int → Except PgError (List Int))
    (table_name shadow_table_name : String) (column_map : ColumnMap) :
    Nat → Option Int → Except PgError Unit
  | 0, _ => .ok ()
  | fuel + 1, last_seen_id =>
    let stmt := match last_seen_id with
      | some _ => b.statement_after table_name shadow_table_name column_map
      | none => b.statement_first table_name shadow_table_name column_map
    match exec stmt last_seen_id with
    | .error e => .error e
    | .ok rows =>
      if rows.isEmpty then .ok ()
      else
        b.backfill_loop exec table_name shadow_table_name column_map fuel
          rows.getLast?

/-- BatchedBackfill::backfill: run the loop starting with a null cursor. -/
def BatchedBackfill.backfill (b : BatchedBackfill)
    (exec : String → Option Int → Except PgError (List Int))
    (table_name shadow_table_name : String) (column_map : ColumnMap)
    (fuel : Nat) : Except PgError Unit :=
  b.backfill_loop exec table_name shadow_table_name column_map fuel none

/-- C2 (claim fails on the code). The batched backfill uses no
`ON CONFLICT DO NOTHING` clause, and a unique-violation error returned for
the first batch insert propagates out of backfill — the conflict aborts the
backfill and is surfaced to the caller, contrary to the claim. -/
theorem backfill_conflict_aborts :
    (∀ (b : BatchedBackfill)
      (exec : String → Option Int → Except PgError (List Int))
      (table_name shadow_table_name : String) (column_map : ColumnMap)
      (fuel : Nat) (e : PgError),
      exec (b.statement_first table_name shadow_table_name column_map) none
        = .error e →
      b.backfill exec table_name shadow_table_name column_map (fuel + 1)
        = .error e)
    ∧ ¬ ("ON CONFLICT".toList <:+:
        ((BatchedBackfill.mk 1000).statement_first "t" "post_migrations.t"
          (ColumnMap.new ["id", "assertable"] ["id", "assertable"])).toList)
    ∧ ¬ ("ON CONFLICT".toList <:+:
        ((BatchedBackfill.mk 1000).statement_after "t" "post_migrations.t"
          (ColumnMap.new ["id", "assertable"] ["id", "assertable"])).toList) := by
  refine ⟨?_, by decide, by decide⟩
  intro b exec table_name shadow_table_name column_map fuel e h
  unfold BatchedBackfill.backfill BatchedBackfill.backfill_loop
  simp only [h]

/-- Witness for `backfill_conflict_aborts`: a database in which the first
batch insert reports a duplicate-key unique violation; the backfill returns
that error. -/
theorem backfill_conflict_aborts_witness :
    ((fun _ _ => Except.error PgError.uniqueViolation :
        String → Option Int → Except PgError (List Int))
      ((BatchedBackfill.mk 1000).statement_first "t" "post_migrations.t"
        (ColumnMap.new ["id"] ["id"])) none
      = .error PgError.uniqueViolation)
    ∧ (BatchedBackfill.mk 1000).backfill
        (fun _ _ => Except.error PgError.uniqueViolation) "t"
        "post_migrations.t" (ColumnMap.new ["id"] ["id"]) 10
      = .error PgError.uniqueViolation :=
  ⟨rfl,
    backfill_conflict_aborts.1 (BatchedBackfill.mk 1000)
      (fun _ _ => Except.error PgError.uniqueViolation) "t"
      "post_migrations.t" (ColumnMap.new ["id"] ["id"]) 9
      PgError.uniqueViolation rfl⟩

/-- The backfill statement the spec mandates (§4.4) for a migration whose
primary-key column is `pk`, cursor present. -/
def specBackfillStatementAfter (pk : String)
    (table_name shadow_table_name : String) (column_map : ColumnMap)
    (batch : Nat) : String :=
  "INSERT INTO " ++ shadow_table_name ++ " ("
    ++ String.intercalate ", " column_map.shadow_cols ++ ") SELECT "
    ++ String.intercalate ", " column_map.main_cols ++ " FROM " ++ table_name
    ++ " WHERE " ++ pk ++ " > $1 ORDER BY " ++ pk ++ " ASC LIMIT "
    ++ toString batch ++ " RETURNING " ++ pk

/-- C3 (claim fails on the code). For a migration whose primary-key column
is named `user_id`, the code's batch statement filters, orders and returns
the hard-coded column `id` — not the migration's primary-key column — so it
differs from the statement the claim mandates (and references a column the
table need not have). -/
theorem backfill_hardcodes_id_column :
    (BatchedBackfill.mk 1000).statement_after "t" "post_migrations.t"
        (ColumnMap.new ["user_id", "assertable"] ["user_id", "assertable"])
      = "INSERT INTO post_migrations.t (user_id, assertable) SELECT "
        ++ "user_id, assertable FROM t WHERE id > $1 ORDER BY id ASC "
        ++ "LIMIT 1000 RETURNING id"
    ∧ (BatchedBackfill.mk 1000).statement_after "t" "post_migrations.t"
        (ColumnMap.new ["user_id", "assertable"] ["user_id", "assertable"])
      ≠ specBackfillStatementAfter "user_id" "t" "post_migrations.t"
        (ColumnMap.new ["user_id", "assertable"] ["user_id", "assertable"])
        1000 := by
  constructor
  · decide
  · decide

/-! ## C7: migration name derivation and table swap (src/migration.rs) -/

/-- src/migration.rs: struct Migration (the fields the cutover uses).
Migration::new parses the DDL for the single base table and queries the
primary key; here the extracted table name and key arrive as inputs and the
derived names are computed exactly as in Migration::new (lines 41-43). -/
structure Migration where
  sql : String
  table_name : String
  shadow_table_name : String
  log_table_name : String
  old_table_name : String
  primary_key : PrimaryKeyInfo
deriving DecidableEq, Repr

/-- Migration::new, name-derivation part. -/
def Migration.new (sql table_name : String) (primary_key : PrimaryKeyInfo) :
    Migration :=
  { sql := sql
    table_name := table_name
    shadow_table_name := "post_migrations." ++ table_name
    log_table_name := "post_migrations." ++ table_name ++ "_log"
    old_table_name := "post_migrations." ++ table_name ++ "_old"
    primary_key := primary_key }

/-- Migration::swap_tables: the single simple_query batch it sends
(src/migration.rs lines 114-121). -/
def Migration.swap_statement (m : Migration) : String :=
  "BEGIN; ALTER TABLE " ++ m.table_name ++ " RENAME TO " ++ m.old_table_name
    ++ "; ALTER TABLE " ++ m.shadow_table_name ++ " RENAME TO "
    ++ m.table_name ++ "; COMMIT;"

/-- The old-table identity the spec mandates (§3): the parking schema
`post_migrations_old` with the table's own name. -/
def specOldTable (table_name : String) : Table :=
  { schema := some "post_migrations_old", name := table_name }

/-- The swap the spec mandates (§4.10). -/
def specSwapStatements (table_name : String) : List String :=
  ["ALTER TABLE public." ++ table_name ++ " SET SCHEMA post_migrations_old",
    "ALTER TABLE post_migrations." ++ table_name ++ " SET SCHEMA public"]

/-- C7 counterexample. For the migration of table `t`, the code's old-table
identity is `(post_migrations, t_old)` — not the claimed
`(post_migrations_old, t)` — and the swap batch contains no `SET SCHEMA`
statement and never mentions the `post_migrations_old` schema, so the
original is not parked at `post_migrations_old.t`. -/
theorem swap_tables_counterexample :
    (Migration.new "ALTER TABLE t ADD COLUMN bar TEXT" "t"
        (PrimaryKeyInfo.mk "id" PgType.int8)).old_table_name
      = "post_migrations.t_old"
    ∧ Table.new (Migration.new "ALTER TABLE t ADD COLUMN bar TEXT" "t"
        (PrimaryKeyInfo.mk "id" PgType.int8)).old_table_name
      ≠ specOldTable "t"
    ∧ (Migration.new "ALTER TABLE t ADD COLUMN bar TEXT" "t"
        (PrimaryKeyInfo.mk "id" PgType.int8)).swap_statement
      = "BEGIN; ALTER TABLE t RENAME TO post_migrations.t_old; "
        ++ "ALTER TABLE post_migrations.t RENAME TO t; COMMIT;"
    ∧ ¬ ("SET SCHEMA".toList <:+:
        ((Migration.new "ALTER TABLE t ADD COLUMN bar TEXT" "t"
          (PrimaryKeyInfo.mk "id" PgType.int8)).swap_statement).toList)
    ∧ ¬ ("post_migrations_old".toList <:+:
        ((Migration.new "ALTER TABLE t ADD COLUMN bar TEXT" "t"
          (PrimaryKeyInfo.mk "id" PgType.int8)).swap_statement).toList) := by
  refine ⟨by decide, by decide, by decide, by decide, by decide⟩

/-- C7 amended. For every migration, the swapped-out original keeps the
`post_migrations` schema under the name `T_old` — the old-table identity is
`post_migrations.T_old` — and the cutover issues the batch
`BEGIN; ALTER TABLE T RENAME TO post_migrations.T_old;
ALTER TABLE post_migrations.T RENAME TO T; COMMIT;`
(RENAME TO statements, not SET SCHEMA). -/
theorem swap_tables_amended :
    ∀ (sql t : String) (pk : PrimaryKeyInfo),
      (Migration.new sql t pk).old_table_name
          = "post_migrations." ++ t ++ "_old"
      ∧ (Migration.new sql t pk).swap_statement
          = "BEGIN; ALTER TABLE " ++ t ++ " RENAME TO "
            ++ ("post_migrations." ++ t ++ "_old") ++ "; ALTER TABLE "
            ++ ("post_migrations." ++ t) ++ " RENAME TO " ++ t
            ++ "; COMMIT;" := by
  intro sql t pk
  exact ⟨rfl, rfl⟩

/-- Witness for `swap_tables_amended` at table `t`. -/
theorem swap_tables_amended_witness :
    (Migration.new "DROP COLUMN target" "t"
        (PrimaryKeyInfo.mk "id" PgType.int4)).old_table_name
      = "post_migrations." ++ "t" ++ "_old"
    ∧ (Migration.new "DROP COLUMN target" "t"
        (PrimaryKeyInfo.mk "id" PgType.int4)).swap_statement
      = "BEGIN; ALTER TABLE " ++ "t" ++ " RENAME TO "
        ++ ("post_migrations." ++ "t" ++ "_old") ++ "; ALTER TABLE "
        ++ ("post_migrations." ++ "t") ++ " RENAME TO " ++ "t"
        ++ "; COMMIT;" :=
  swap_tables_amended "DROP COLUMN target" "t" (PrimaryKeyInfo.mk "id" PgType.int4)

/-! ## C1: the cutover transaction of orchestrate(execute=true)
(src/orchestrator.rs lines 84-89) -/

/-- The log-fetch query of fetch_batch / replay_log_until_complete. -/
def LogTableReplay.fetch_query (r : LogTableReplay) : String :=
  "DELETE FROM " ++ r.log_table.display
    ++ " WHERE post_migration_log_id IN (SELECT post_migration_log_id FROM "
    ++ r.log_table.display
    ++ " ORDER BY post_migration_log_id ASC LIMIT $1) RETURNING *"

/-- Statements sent by LogTableReplay::replay_log_until_complete inside the
cutover transaction: each iteration issues the fetch query; a non-empty
batch is followed by its apply-statements and another iteration.  `fuel`
bounds the iteration count of this model (the Rust loop is unbounded). -/
def LogTableReplay.replay_log_until_complete_trace (r : LogTableReplay) :
    Nat → List LogEntry → List String
  | 0, _ => []
  | fuel + 1, log =>
    let rows := (sortLog log).take 100
    if rows.isEmpty then [r.fetch_query]
    else
      [r.fetch_query] ++ r.batch2sql (rows.map LogEntry.row) r.column_map
        ++ r.replay_log_until_complete_trace fuel ((sortLog log).drop 100)

/-- Statements sent by LogTableReplay::teardown (two batch_execute calls:
drop triggers and functions, then drop the log table). -/
def LogTableReplay.teardown_statements (r : LogTableReplay) : List String :=
  ["\n            DROP TRIGGER IF EXISTS " ++ r.table.display
      ++ "_insert_trigger ON " ++ r.table.display
      ++ ";\n            DROP TRIGGER IF EXISTS " ++ r.table.display
      ++ "_delete_trigger ON " ++ r.table.display
      ++ ";\n            DROP TRIGGER IF EXISTS " ++ r.table.display
      ++ "_update_trigger ON " ++ r.table.display
      ++ ";\n            DROP FUNCTION IF EXISTS " ++ r.log_table.display
      ++ "_insert_trigger_fn();\n            DROP FUNCTION IF EXISTS "
      ++ r.log_table.display
      ++ "_delete_trigger_fn();\n            DROP FUNCTION IF EXISTS "
      ++ r.log_table.display ++ "_update_trigger_fn();\n            ",
    "DROP TABLE IF EXISTS " ++ r.log_table.display ++ ";"]

/-- The statement trace of the `execute` branch of
MigrationOrchestrator::orchestrate: open a transaction, drain the log with
replay_log_until_complete, tear down capture, swap the tables, commit.  No
other statement is sent inside the transaction. -/
def MigrationOrchestrator.cutover_statements (m : Migration)
    (r : LogTableReplay) (fuel : Nat) (log : List LogEntry) : List String :=
  ["BEGIN"] ++ r.replay_log_until_complete_trace fuel log
    ++ r.teardown_statements ++ [m.swap_statement] ++ ["COMMIT"]

/-- Boolean substring check on character lists. -/
def containsSubstring (needle : List Char) : List Char → Bool
  | [] => needle.isPrefixOf []
  | c :: rest => needle.isPrefixOf (c :: rest) || containsSubstring needle rest

/-- C1 (claim fails on the code). The cutover transaction of an executed
migration on table `t` (one residual INSERT event in the log) opens with
BEGIN, drains, tears down, swaps and commits — but none of its statements
contains `LOCK` or `EXCLUSIVE`: no write-blocking exclusive lock on the
base table is ever acquired (migration.rs line 297 carries the TODO
admitting the missing lock). -/
theorem cutover_acquires_no_lock :
    ((MigrationOrchestrator.cutover_statements
        (Migration.new "ALTER TABLE t ADD COLUMN bar TEXT" "t"
          (PrimaryKeyInfo.mk "id" PgType.int8))
        (LogTableReplay.mk (Table.mk (some "post_migrations") "t_log")
          (Table.mk (some "post_migrations") "t") (Table.mk none "t")
          (ColumnMap.new ["id", "bar"] ["id", "bar"])
          (PrimaryKeyInfo.mk "id" PgType.int8))
        2 [LogEntry.mk 1 (LogRow.mk "INSERT" 7)]).all
      (fun stmt => !(containsSubstring "LOCK".toList stmt.toList)) = true)
    ∧ ((MigrationOrchestrator.cutover_statements
        (Migration.new "ALTER TABLE t ADD COLUMN bar TEXT" "t"
          (PrimaryKeyInfo.mk "id" PgType.int8))
        (LogTableReplay.mk (Table.mk (some "post_migrations") "t_log")
          (Table.mk (some "post_migrations") "t") (Table.mk none "t")
          (ColumnMap.new ["id", "bar"] ["id", "bar"])
          (PrimaryKeyInfo.mk "id" PgType.int8))
        2 [LogEntry.mk 1 (LogRow.mk "INSERT" 7)]).all
      (fun stmt => !(containsSubstring "EXCLUSIVE".toList stmt.toList)) = true)
    ∧ (MigrationOrchestrator.cutover_statements
        (Migration.new "ALTER TABLE t ADD COLUMN bar TEXT" "t"
          (PrimaryKeyInfo.mk "id" PgType.int8))
        (LogTableReplay.mk (Table.mk (some "post_migrations") "t_log")
          (Table.mk (some "post_migrations") "t") (Table.mk none "t")
          (ColumnMap.new ["id", "bar"] ["id", "bar"])
          (PrimaryKeyInfo.mk "id" PgType.int8))
        2 [LogEntry.mk 1 (LogRow.mk "INSERT" 7)]).head? = some "BEGIN"
    ∧ (MigrationOrchestrator.cutover_statements
        (Migration.new "ALTER TABLE t ADD COLUMN bar TEXT" "t"
          (PrimaryKeyInfo.mk "id" PgType.int8))
        (LogTableReplay.mk (Table.mk (some "post_migrations") "t_log")
          (Table.mk (some "post_migrations") "t") (Table.mk none "t")
          (ColumnMap.new ["id", "bar"] ["id", "bar"])
          (PrimaryKeyInfo.mk "id" PgType.int8))
        2 [LogEntry.mk 1 (LogRow.mk "INSERT" 7)]).getLast? = some "COMMIT"
    ∧ (Migration.new "ALTER TABLE t ADD COLUMN bar TEXT" "t"
          (PrimaryKeyInfo.mk "id" PgType.int8)).swap_statement
        ∈ MigrationOrchestrator.cutover_statements
          (Migration.new "ALTER TABLE t ADD COLUMN bar TEXT" "t"
            (PrimaryKeyInfo.mk "id" PgType.int8))
          (LogTableReplay.mk (Table.mk (some "post_migrations") "t_log")
            (Table.mk (some "post_migrations") "t") (Table.mk none "t")
            (ColumnMap.new ["id", "bar"] ["id", "bar"])
            (PrimaryKeyInfo.mk "id" PgType.int8))
          2 [LogEntry.mk 1 (LogRow.mk "INSERT" 7)] := by
  refine ⟨by decide, by decide, by decide, by decide, by decide⟩

/-! ## C8: logical-capture teardown (src/replay.rs LogicalReplay::teardown) -/

/-- src/logical_replication.rs: struct Slot { name, plugin }. -/
structure Slot where
  name : String
  plugin : String
deriving DecidableEq, Repr

/-- Slot::new: plugin fixed to wal2json. -/
def Slot.new (name : String) : Slot :=
  { name := name, plugin := "wal2json" }

/-- The statement Slot::drop_slot sends. -/
def Slot.drop_statement (s : Slot) : String :=
  "SELECT pg_drop_replication_slot(\x27" ++ s.name ++ "\x27)"

/-- src/logical_replication.rs: struct Publication { name, table, slot }. -/
structure Publication where
  name : String
  table : Table
  slot : Slot
deriving DecidableEq, Repr

/-- The statement Publication::drop sends. -/
def Publication.drop_statement (p : Publication) : String :=
  "DROP PUBLICATION IF EXISTS " ++ p.name

/-- src/replay.rs: struct LogicalReplay (fields used by teardown). -/
structure LogicalReplay where
  slot : Slot
  publication : Publication
  table : Table
  shadow_table : Table
  column_map : ColumnMap
  primary_key : PrimaryKeyInfo

/-- The statements a client connection has been asked to run. -/
structure SqlLog where
  sent : List String
deriving DecidableEq, Repr

/-- client.simple_query(&stmt): the statement reaches the server (is
recorded) and succeeds or fails according to the oracle. -/
def run_simple_query (fails : String → Bool) (stmt : String) (log : SqlLog) :
    SqlLog × Except String Unit :=
  ({ sent := log.sent ++ [stmt] },
    if fails stmt then .error stmt else .ok ())

/-- LogicalReplay::teardown (src/replay.rs): `let _ =
self.publication.drop(client); let _ = self.slot.drop_slot(client);
Ok(())` — both drop results are discarded. -/
def LogicalReplay.teardown (r : LogicalReplay) (fails : String → Bool)
    (log : SqlLog) : SqlLog × Except String Unit :=
  let step1 := run_simple_query fails r.publication.drop_statement log
  let step2 := run_simple_query fails r.slot.drop_statement step1.1
  (step2.1, .ok ())

/-- C8. Logical-capture teardown attempts both drops whatever the oracle
says: for every failure pattern, the publication drop and the slot drop are
both sent (in that order, appended to the connection log), and teardown
itself reports success — a failure of the first drop never prevents the
second from being attempted. -/
theorem logical_teardown_attempts_both :
    ∀ (r : LogicalReplay) (fails : String → Bool) (log : SqlLog),
      (r.teardown fails log).1.sent
          = log.sent ++ [r.publication.drop_statement, r.slot.drop_statement]
      ∧ r.publication.drop_statement ∈ (r.teardown fails log).1.sent
      ∧ r.slot.drop_statement ∈ (r.teardown fails log).1.sent
      ∧ (r.teardown fails log).2 = .ok () := by
  intro r fails log
  refine ⟨?_, ?_, ?_, rfl⟩ <;>
    simp [LogicalReplay.teardown, run_simple_query]

/-! ## C9: LSN textual round-trip (src/logical_replication/message.rs) -/

/-- src/logical_replication/message.rs: struct Lsn(pub u64); the u64 is a
Nat kept below 2^64. -/
structure Lsn where
  val : Nat
deriving DecidableEq, Repr

/-- An uppercase hexadecimal digit, as Rust's `{:X}` format prints it. -/
def hexDigitChar (m : Nat) : Char :=
  if m < 10 then Char.ofNat (48 + m) else Char.ofNat (55 + m)

/-- Digits of `n` in base 16, most significant first, prepended to `acc`;
`fuel ≥ n` suffices for the loop of the formatter. -/
def toHexAux : Nat → Nat → List Char → List Char
  | 0, _, acc => acc
  | fuel + 1, n, acc =>
    if n = 0 then acc
    else toHexAux fuel (n / 16) (hexDigitChar (n % 16) :: acc)

/-- Rust `format!("{:X}", n)`: uppercase hex without leading zeros, `0` for
zero. -/
def toHexString (n : Nat) : String :=
  if n = 0 then "0" else String.mk (toHexAux n n [])

/-- Lsn::to_pg_string: `format!("{:X}/{:X}", self.0 >> 32,
self.0 & 0xFFFFFFFF)`. -/
def Lsn.to_pg_string (l : Lsn) : String :=
  toHexString (l.val >>> 32) ++ "/" ++ toHexString (l.val &&& 0xFFFFFFFF)

/-- Value of a hexadecimal digit character, any case (as
u64::from_str_radix accepts). -/
def hexDigitVal (c : Char) : Option Nat :=
  if '0' ≤ c ∧ c ≤ '9' then some (c.toNat - 48)
  else if 'A' ≤ c ∧ c ≤ 'F' then some (c.toNat - 55)
  else if 'a' ≤ c ∧ c ≤ 'f' then some (c.toNat - 87)
  else none

/-- Accumulating base-16 parse of a digit string. -/
def parseHexDigits : List Char → Nat → Option Nat
  | [], acc => some acc
  | c :: cs, acc =>
    match hexDigitVal c with
    | some d => parseHexDigits cs (16 * acc + d)
    | none => none

/-- Model of u64::from_str_radix(s, 16): an optional leading `+`, then at
least one hex digit; values not representable in 64 bits are an error. -/
def from_str_radix16 (s : List Char) : Option Nat :=
  let digits :=
    match s with
    | c :: rest => if c = '+' then rest else c :: rest
    | [] => []
  match digits with
  | [] => none
  | _ :: _ =>
    (parseHexDigits digits 0).bind
      (fun n => if n < 2 ^ 64 then some n else none)

/-- Rust str::split('/') on character lists. -/
def splitSlash : List Char → List (List Char)
  | [] => [[]]
  | c :: cs =>
    if c = '/' then [] :: splitSlash cs
    else
      match splitSlash cs with
      | h :: t => (c :: h) :: t
      | [] => [[c]]

/-- Lsn::from_pg_string: split on `/`, parse the first two parts as hex,
recombine as `(hi << 32) | lo` in u64 arithmetic. -/
def Lsn.from_pg_string (s : String) : Option Lsn :=
  match splitSlash s.toList with
  | p1 :: p2 :: _ =>
    (from_str_radix16 p1).bind (fun hi =>
      (from_str_radix16 p2).bind (fun lo =>
        some ⟨((hi <<< 32) % 2 ^ 64) ||| lo⟩))
  | _ => none

section LsnLemmas

lemma hexDigitVal_hexDigitChar {m : Nat} (h : m < 16) :
    hexDigitVal (hexDigitChar m) = some m := by
  interval_cases m <;> decide

lemma hexDigitChar_ne_plus {m : Nat} (h : m < 16) : hexDigitChar m ≠ '+' := by
  interval_cases m <;> decide

lemma hexDigitChar_ne_slash {m : Nat} (h : m < 16) : hexDigitChar m ≠ '/' := by
  interval_cases m <;> decide

lemma toHexAux_acc :
    ∀ n fuel acc, n ≤ fuel → toHexAux fuel n acc = toHexAux n n [] ++ acc := by
  intro n
  induction n using Nat.strong_induction_on with
  | _ n ih =>
    intro fuel acc hle
    rcases n with _ | m
    · cases fuel with
      | zero => rfl
      | succ f => simp [toHexAux]
    · cases fuel with
      | zero => omega
      | succ f =>
        have h16 : (m + 1) / 16 < m + 1 := Nat.div_lt_self (by omega) (by omega)
        have e1 : toHexAux (f + 1) (m + 1) acc
            = toHexAux ((m + 1) / 16) ((m + 1) / 16) []
              ++ (hexDigitChar ((m + 1) % 16) :: acc) := by
          simp only [toHexAux]
          rw [if_neg (by omega), ih ((m + 1) / 16) h16 f _ (by omega)]
        have e2 : toHexAux (m + 1) (m + 1) []
            = toHexAux ((m + 1) / 16) ((m + 1) / 16) []
              ++ [hexDigitChar ((m + 1) % 16)] := by
          simp only [toHexAux]
          rw [if_neg (by omega), ih ((m + 1) / 16) h16 m _ (by omega)]
        rw [e1, e2]
        simp

def hexLen : Nat → Nat
  | 0 => 0
  | n + 1 => hexLen ((n + 1) / 16) + 1
  decreasing_by exact Nat.div_lt_self (by omega) (by omega)

lemma parseHexDigits_toHexAux :
    ∀ n (a0 : Nat) (rest : List Char),
      parseHexDigits (toHexAux n n [] ++ rest) a0
        = parseHexDigits rest (a0 * 16 ^ hexLen n + n) := by
  intro n
  induction n using Nat.strong_induction_on with
  | _ n ih =>
    intro a0 rest
    rcases n with _ | m
    · simp [toHexAux, hexLen]
    · have h16 : (m + 1) / 16 < m + 1 := Nat.div_lt_self (by omega) (by omega)
      have e2 : toHexAux (m + 1) (m + 1) []
          = toHexAux ((m + 1) / 16) ((m + 1) / 16) []
            ++ [hexDigitChar ((m + 1) % 16)] := by
        simp only [toHexAux]
        rw [if_neg (by omega), toHexAux_acc ((m + 1) / 16) m _ (by omega)]
      rw [e2, List.append_assoc,
        ih ((m + 1) / 16) h16 a0 ([hexDigitChar ((m + 1) % 16)] ++ rest)]
      simp only [List.singleton_append, parseHexDigits,
        hexDigitVal_hexDigitChar (Nat.mod_lt _ (by omega))]
      congr 1
      have hlen : hexLen (m + 1) = hexLen ((m + 1) / 16) + 1 := by
        simp [hexLen]
      have hdm : 16 * ((m + 1) / 16) + (m + 1) % 16 = m + 1 :=
        Nat.div_add_mod (m + 1) 16
      rw [hlen, pow_succ]
      calc 16 * (a0 * 16 ^ hexLen ((m + 1) / 16) + (m + 1) / 16)
            + (m + 1) % 16
          = a0 * (16 ^ hexLen ((m + 1) / 16) * 16)
            + (16 * ((m + 1) / 16) + (m + 1) % 16) := by ring
        _ = a0 * (16 ^ hexLen ((m + 1) / 16) * 16) + (m + 1) := by rw [hdm]

lemma toHexAux_chars :
    ∀ fuel n acc c, c ∈ toHexAux fuel n acc →
      c ∈ acc ∨ ∃ m, m < 16 ∧ c = hexDigitChar m := by
  intro fuel
  induction fuel with
  | zero => intro n acc c hc; exact Or.inl hc
  | succ f ih =>
    intro n acc c hc
    simp only [toHexAux] at hc
    by_cases hn : n = 0
    · rw [if_pos hn] at hc
      exact Or.inl hc
    · rw [if_neg hn] at hc
      rcases ih (n / 16) _ c hc with hin | hm
      · rcases List.mem_cons.mp hin with rfl | hin2
        · exact Or.inr ⟨n % 16, Nat.mod_lt _ (by omega), rfl⟩
        · exact Or.inl hin2
      · exact Or.inr hm

lemma toHexString_toList {n : Nat} (h : n ≠ 0) :
    (toHexString n).toList = toHexAux n n [] := by
  simp [toHexString, h, String.toList]

lemma toHexString_no_slash (n : Nat) : '/' ∉ (toHexString n).toList := by
  by_cases hn : n = 0
  · subst hn
    decide
  · rw [toHexString_toList hn]
    intro hmem
    rcases toHexAux_chars n n [] '/' hmem with h0 | ⟨m, hm, he⟩
    · exact absurd h0 (List.not_mem_nil _)
    · exact hexDigitChar_ne_slash hm he.symm

lemma from_str_radix16_toHex {n : Nat} (h : n < 2 ^ 64) :
    from_str_radix16 (toHexString n).toList = some n := by
  by_cases hn : n = 0
  · subst hn
    decide
  · rw [toHexString_toList hn]
    have hparse : parseHexDigits (toHexAux n n []) 0 = some n := by
      have := parseHexDigits_toHexAux n 0 []
      simpa using this
    rcases hx : toHexAux n n [] with _ | ⟨c, cs⟩
    · exfalso
      rcases n with _ | m
      · exact hn rfl
      · have e2 : toHexAux (m + 1) (m + 1) []
            = toHexAux ((m + 1) / 16) ((m + 1) / 16) []
              ++ [hexDigitChar ((m + 1) % 16)] := by
          simp only [toHexAux]
          rw [if_neg (by omega),
            toHexAux_acc ((m + 1) / 16) m _
              (by omega : (m + 1) / 16 ≤ m)]
        rw [hx] at e2
        exact absurd e2.symm (by simp)
    · have hc : c ≠ '+' := by
        have hcm : c ∈ toHexAux n n [] := by
          rw [hx]
          exact List.mem_cons_self c cs
        rcases toHexAux_chars n n [] c hcm with h0 | ⟨m, hm, he⟩
        · exact absurd h0 (List.not_mem_nil _)
        · exact he ▸ hexDigitChar_ne_plus hm
      rw [hx] at hparse
      simp [from_str_radix16, hc, hparse]
      omega

lemma splitSlash_no_slash : ∀ l : List Char, '/' ∉ l → splitSlash l = [l] := by
  intro l
  induction l with
  | nil => intro _; rfl
  | cons c cs ih =>
    intro hnot
    have hc : c ≠ '/' := fun hcontra => hnot (hcontra ▸ List.mem_cons_self c cs)
    have hcs : '/' ∉ cs := fun hmem => hnot (List.mem_cons_of_mem c hmem)
    simp only [splitSlash, if_neg hc, ih hcs]

lemma splitSlash_append :
    ∀ (a b : List Char), '/' ∉ a →
      splitSlash (a ++ '/' :: b) = a :: splitSlash b := by
  intro a
  induction a with
  | nil => intro b _; simp [splitSlash]
  | cons c cs ih =>
    intro b hnot
    have hc : c ≠ '/' := fun hcontra => hnot (hcontra ▸ List.mem_cons_self c cs)
    have hcs : '/' ∉ cs := fun hmem => hnot (List.mem_cons_of_mem c hmem)
    simp only [List.cons_append, splitSlash, if_neg hc, List.append_eq,
      ih b hcs]

lemma lor_mul_pow_add (a b : Nat) (h : b < 2 ^ 32) :
    (a * 2 ^ 32) ||| b = a * 2 ^ 32 + b := by
  apply Nat.eq_of_testBit_eq
  intro j
  rw [Nat.testBit_lor, mul_comm a (2 ^ 32), Nat.testBit_mul_pow_two,
    Nat.testBit_mul_pow_two_add a h j]
  by_cases hj : j < 32
  · simp [hj, Nat.not_le.mpr hj]
  · have hbj : b.testBit j = false :=
      Nat.testBit_lt_two_pow
        (lt_of_lt_of_le h (Nat.pow_le_pow_right (by omega) (by omega)))
    simp [hj, hbj, Nat.le_of_not_lt hj]

lemma string_append_slash_toList (a b : String) :
    (a ++ "/" ++ b).toList = a.toList ++ '/' :: b.toList := by
  simp [String.toList, String.data_append]

end LsnLemmas

/-- C9. For every 64-bit value v,
`Lsn::from_pg_string(Lsn(v).to_pg_string())` returns `Lsn(v)`; in
particular parsing `0/16B6C50` yields `Lsn(0x16B6C50)` and rendering
`Lsn(0x16B6C50)` yields `0/16B6C50`. -/
theorem lsn_round_trip :
    (∀ v : Nat, v < 2 ^ 64 →
      Lsn.from_pg_string (Lsn.to_pg_string ⟨v⟩) = some ⟨v⟩)
    ∧ Lsn.from_pg_string "0/16B6C50" = some ⟨0x16B6C50⟩
    ∧ Lsn.to_pg_string ⟨0x16B6C50⟩ = "0/16B6C50" := by
  refine ⟨?_, by decide, by decide⟩
  intro v hv
  have hhi : v >>> 32 = v / 2 ^ 32 := Nat.shiftRight_eq_div_pow v 32
  have hlo : v &&& 0xFFFFFFFF = v % 2 ^ 32 := by
    have hmask : (0xFFFFFFFF : Nat) = 2 ^ 32 - 1 := by norm_num
    rw [hmask, Nat.and_pow_two_sub_one_eq_mod]
  have hhilt : v / 2 ^ 32 < 2 ^ 32 := by
    apply Nat.div_lt_of_lt_mul
    calc v < 2 ^ 64 := hv
      _ = 2 ^ 32 * 2 ^ 32 := by norm_num
  have hlolt : v % 2 ^ 32 < 2 ^ 32 := Nat.mod_lt _ (by norm_num)
  unfold Lsn.from_pg_string Lsn.to_pg_string
  rw [string_append_slash_toList,
    splitSlash_append _ _ (toHexString_no_slash _),
    splitSlash_no_slash _ (toHexString_no_slash _)]
  show (from_str_radix16 (toHexString (v >>> 32)).toList).bind
      (fun hi => (from_str_radix16
        (toHexString (v &&& 0xFFFFFFFF)).toList).bind
        (fun lo => some (Lsn.mk (((hi <<< 32) % 2 ^ 64) ||| lo))))
      = some (Lsn.mk v)
  rw [from_str_radix16_toHex (show v >>> 32 < 2 ^ 64 by rw [hhi]; omega),
    from_str_radix16_toHex
      (show v &&& 0xFFFFFFFF < 2 ^ 64 by rw [hlo]; omega)]
  simp only [Option.some_bind]
  rw [hhi, hlo]
  congr 1
  congr 1
  rw [Nat.shiftLeft_eq,
    Nat.mod_eq_of_lt
      (by
        calc v / 2 ^ 32 * 2 ^ 32 < 2 ^ 32 * 2 ^ 32 :=
          (Nat.mul_lt_mul_right (by norm_num)).mpr hhilt
          _ = 2 ^ 64 := by norm_num),
    lor_mul_pow_add _ _ hlolt]
  rw [mul_comm]
  exact Nat.div_add_mod v (2 ^ 32)

/-- Witness for `lsn_round_trip` at v = 0x16B6C50. -/
theorem lsn_round_trip_witness :
    (0x16B6C50 : Nat) < 2 ^ 64
    ∧ Lsn.from_pg_string (Lsn.to_pg_string ⟨0x16B6C50⟩)
        = some ⟨0x16B6C50⟩ :=
  ⟨by decide, lsn_round_trip.1 0x16B6C50 (by decide)⟩
